import Mathlib

/-!
Verification development for the OpenInterviewer interview-orchestration core.

The definitions below are shallow embeddings of the TypeScript sources:
  * the shared types of `src/types` (the repository's type module),
  * `cleanJSON` and `defaultInterviewResponse` from the AI provider
    abstraction layer,
  * `GeminiProvider.generateInterviewResponse` from
    `src/lib/providers/gemini.ts` (backend call and JSON parse modelled as
    an `Except` input; every thrown error is the `error` case),
  * `buildInterviewSystemPrompt` and its helpers from
    `src/lib/prompts/interview.ts` (the second, current definition in that
    file, lines 266-333),
  * the phase state machine and turn reconciliation of the orchestrator,
    which is not part of the sources and is therefore modelled from the
    specification (each such definition is marked `Modelled from the spec:`).

JavaScript strings are modelled as `List Char`; JavaScript numbers that
are used as integers are modelled as `Int` (indices) or `Nat` (lengths).
-/

/-! ## Types (from the repository's type module) -/

/-- The five interview phases, in their fixed order. -/
inductive InterviewPhase where
  | background
  | coreQuestions
  | exploration
  | feedback
  | wrapUp
deriving DecidableEq, Repr

/-- The TypeScript string rendered for each phase. -/
def phaseToString : InterviewPhase → String
  | .background => "background"
  | .coreQuestions => "core-questions"
  | .exploration => "exploration"
  | .feedback => "feedback"
  | .wrapUp => "wrap-up"

inductive ProfileFieldStatus where
  | pending
  | extracted
  | vague
  | refused
deriving DecidableEq, Repr

structure ProfileField where
  id : String
  label : String
  extractionHint : String
  required : Bool
  options : Option (List String)
deriving DecidableEq, Repr

structure ProfileFieldValue where
  fieldId : String
  value : Option String
  status : ProfileFieldStatus
  extractedAt : Option Int
deriving DecidableEq, Repr

/-- Participant profile; `nickname` is the optional extra field used by the
current prompt builder. -/
structure ParticipantProfile where
  id : String
  fields : List ProfileFieldValue
  rawContext : String
  timestamp : Int
  nickname : Option String
deriving DecidableEq, Repr

inductive AIBehavior where
  | structured
  | standard
  | exploratory
deriving DecidableEq, Repr

inductive InterviewerTone where
  | formal
  | professional
  | neutral
  | friendly
  | extremelyFriendly
deriving DecidableEq, Repr

/-- Study configuration. `language` and `tone` are the optional fields read
by the current prompt builder (absent on older configs, hence `Option`). -/
structure StudyConfig where
  id : String
  name : String
  description : String
  researchQuestion : String
  coreQuestions : List String
  topicAreas : List String
  profileSchema : List ProfileField
  aiBehavior : AIBehavior
  consentText : String
  createdAt : Int
  language : Option String
  tone : Option InterviewerTone
deriving DecidableEq, Repr

inductive MessageRole where
  | user
  | ai
  | system
deriving DecidableEq, Repr

structure InterviewMessage where
  id : String
  role : MessageRole
  content : String
  timestamp : Int
  isVoice : Option Bool
deriving DecidableEq, Repr

structure QuestionProgress where
  questionsAsked : List Int
  total : Int
  currentPhase : InterviewPhase
  isComplete : Bool
deriving DecidableEq, Repr

/-- Status proposed by a profile update (`'extracted' | 'vague' | 'refused'`). -/
inductive ProposedStatus where
  | extracted
  | vague
  | refused
deriving DecidableEq, Repr

structure ProfileUpdate where
  fieldId : String
  value : Option String
  status : ProposedStatus
deriving DecidableEq, Repr

/-- The reconciled, typed AI response (the `AIInterviewResponse` interface). -/
structure AIInterviewResponseTS where
  message : String
  questionAddressed : Option Int
  phaseTransition : Option InterviewPhase
  profileUpdates : List ProfileUpdate
  shouldConclude : Bool
deriving DecidableEq, Repr

/-! ## `cleanJSON` (AI provider abstraction layer)

`cleanJSON` strips Markdown code-fence markers with two global regex
replacements, trims the result, and then extracts a balanced JSON array or
object by a depth-counting scan.  We model JavaScript strings as `List Char`.
-/

/-- Whitespace class used for the regex `\s` and for `trim`. -/
def jsWs (ch : Char) : Bool :=
  ch = ' ' || ch = '\t' || ch = '\n' || ch = '\r' || ch = '\x0b' || ch = '\x0c'

/-- One global regex replacement of `tok` followed by `\s*` with the empty
string, fuelled to keep the recursion structural (the fuel `l.length`
always suffices because every step consumes at least one character). -/
def stripTokenFuel (tok : List Char) : Nat → List Char → List Char
  | _, [] => []
  | 0, l => l
  | fuel + 1, ch :: rest =>
    if tok ≠ [] ∧ tok.isPrefixOf (ch :: rest) then
      stripTokenFuel tok fuel (((ch :: rest).drop tok.length).dropWhile jsWs)
    else
      ch :: stripTokenFuel tok fuel rest

def stripToken (tok l : List Char) : List Char :=
  stripTokenFuel tok l.length l

/-- JavaScript `String.prototype.trim` on the whitespace class above. -/
def trimChars (l : List Char) : List Char :=
  ((l.dropWhile jsWs).reverse.dropWhile jsWs).reverse

/-- The cleaned text: `text.replace(/```json\s*!/g, '').replace(/```\s*!/g, '').trim()`
(the `!` is not part of the regexes; it only closes the inline code here). -/
def cleanedOf (l : List Char) : List Char :=
  trimChars (stripToken "```".data (stripToken "```json".data l))

/-- The depth-counting loop of `cleanJSON`: starting depth `d`, returns the
relative index of the character at which the depth returns to zero. -/
def scanClose (o c : Char) : List Char → Int → Option Nat
  | [], _ => none
  | ch :: rest, d =>
    let d' := if ch = o then d + 1 else if ch = c then d - 1 else d
    if d' = 0 then some 0 else (scanClose o c rest d').map (· + 1)

/-- Character-list version of `cleanJSON`. -/
def cleanJSONList (l : List Char) : List Char :=
  if l = [] then "\x7b\x7d".data
  else
    let cleaned := cleanedOf l
    let firstBracket := cleaned.findIdx? (· = '[')
    let firstBrace := cleaned.findIdx? (· = '\x7b')
    let arrPart : Option (List Char) :=
      match firstBracket with
      | some i =>
        if (match firstBrace with | none => true | some j => i < j) then
          match scanClose '[' ']' (cleaned.drop i) 0 with
          | some k => some ((cleaned.drop i).take (k + 1))
          | none => none
        else none
      | none => none
    match arrPart with
    | some r => r
    | none =>
      match firstBrace with
      | some j =>
        match scanClose '\x7b' '\x7d' (cleaned.drop j) 0 with
        | some k => (cleaned.drop j).take (k + 1)
        | none => cleaned
      | none => cleaned

/-- Embedding of `cleanJSON` from the provider abstraction layer. -/
def cleanJSON (s : String) : String :=
  String.mk (cleanJSONList s.data)

/-! ### Specification-side description of the extraction

`specClose` describes "the position at which the outermost bracket depth
returns to zero" declaratively: the least prefix of the scanned suffix in
which opening and closing brackets of the extracted kind balance. -/

def specClose (o c : Char) (l : List Char) : Option Nat :=
  (List.range l.length).find? (fun j => (l.take (j + 1)).count o = (l.take (j + 1)).count c)

/-- The balanced chunk starting at index `i`, when the depth returns to zero. -/
def balancedChunk (o c : Char) (l : List Char) (i : Nat) : Option (List Char) :=
  (specClose o c (l.drop i)).map (fun k => (l.drop i).take (k + 1))

/-- Specification-side description of `cleanJSON` (claim wording, with the
default amended): after fence stripping and trimming, extract the first
complete balanced JSON array or object, preferring an array that starts
before any brace; if no structure completes, the cleaned text itself is
returned, and `\x7b\x7d` is returned only for empty input. -/
def cleanJSONSpecList (l : List Char) : List Char :=
  if l = [] then "\x7b\x7d".data
  else
    let cleaned := cleanedOf l
    match cleaned.findIdx? (· = '['), cleaned.findIdx? (· = '\x7b') with
    | some i, some j =>
      if i < j then
        ((balancedChunk '[' ']' cleaned i).orElse
          (fun _ => balancedChunk '\x7b' '\x7d' cleaned j)).getD cleaned
      else (balancedChunk '\x7b' '\x7d' cleaned j).getD cleaned
    | some i, none => (balancedChunk '[' ']' cleaned i).getD cleaned
    | none, some j => (balancedChunk '\x7b' '\x7d' cleaned j).getD cleaned
    | none, none => cleaned

def cleanJSONSpec (s : String) : String :=
  String.mk (cleanJSONSpecList s.data)

/-! ## `GeminiProvider.generateInterviewResponse` (`src/lib/providers/gemini.ts`)

The backend call, `cleanJSON` and `JSON.parse` together either throw (network
error, timeout, quota, unparseable text) or produce a JavaScript value; we
model that joint outcome as an `Except Unit JsVal` input.  The `try/catch`
of `generateInterviewResponse` and the per-field defaulting of its `return`
statement are embedded exactly. -/

/-- Untyped JavaScript values as they come out of `JSON.parse`, plus
`undefined` for absent properties. -/
inductive JsVal where
  | null
  | undefined
  | bool (b : Bool)
  | num (n : Int)
  | str (s : String)
  | arr (elems : List JsVal)
  | obj (fields : List (String × JsVal))

/-- JavaScript truthiness. -/
def jsTruthy : JsVal → Bool
  | .null => false
  | .undefined => false
  | .bool b => b
  | .num n => n != 0
  | .str s => s != ""
  | .arr _ => true
  | .obj _ => true

/-- JavaScript nullishness (`null` or `undefined`). -/
def jsNullish : JsVal → Bool
  | .null => true
  | .undefined => true
  | _ => false

/-- JavaScript disjunction `a || b`. -/
def jsOr (a b : JsVal) : JsVal :=
  if jsTruthy a then a else b

/-- JavaScript nullish coalescing `a ?? b`. -/
def jsCoalesce (a b : JsVal) : JsVal :=
  if jsNullish a then b else a

/-- Property access `j.k`: throws a `TypeError` on `null`/`undefined`,
yields `undefined` for a missing property or a non-object. -/
def getProp (j : JsVal) (k : String) : Except Unit JsVal :=
  match j with
  | .null => .error ()
  | .undefined => .error ()
  | .obj kvs => .ok (((kvs.find? (fun kv => kv.1 = k)).map (·.2)).getD .undefined)
  | _ => .ok .undefined

/-- Total property accessor, used to state properties of responses; agrees
with `getProp` whenever the receiver is not nullish. -/
def propOf (j : JsVal) (k : String) : JsVal :=
  match j with
  | .obj kvs => ((kvs.find? (fun kv => kv.1 = k)).map (·.2)).getD .undefined
  | _ => .undefined

/-- Untyped response record as built by `generateInterviewResponse`. -/
structure AIInterviewResponseJs where
  message : JsVal
  questionAddressed : JsVal
  phaseTransition : JsVal
  profileUpdates : JsVal
  shouldConclude : JsVal

/-- Embedding of `defaultInterviewResponse` from the provider abstraction layer. -/
def defaultInterviewResponse : AIInterviewResponseJs where
  message := .str ("I appreciate you sharing that. What else comes to mind?")
  questionAddressed := .null
  phaseTransition := .null
  profileUpdates := .arr []
  shouldConclude := .bool false

/-- The field extraction of the `return` statement inside the `try` block
(property accesses may still throw, e.g. when `parsed` is `null`). -/
def interviewResponseFields (parsed : JsVal) : Except Unit AIInterviewResponseJs := do
  let m ← getProp parsed "message"
  let qa ← getProp parsed "questionAddressed"
  let pt ← getProp parsed "phaseTransition"
  let pu ← getProp parsed "profileUpdates"
  let sc ← getProp parsed "shouldConclude"
  pure
    { message := jsOr m (.str ("That's interesting. Could you tell me more?"))
      questionAddressed := jsCoalesce qa .null
      phaseTransition := jsCoalesce pt .null
      profileUpdates := jsOr pu (.arr [])
      shouldConclude := jsOr sc (.bool false) }

/-- Embedding of `generateInterviewResponse`, as a function of the joint outcome of the
backend call and JSON parsing.  The surrounding `try/catch` turns every
failure into `defaultInterviewResponse`; the function is total, so no
failure propagates to the caller. -/
def generateInterviewResponseModel (backend : Except Unit JsVal) : AIInterviewResponseJs :=
  match backend with
  | .error _ => defaultInterviewResponse
  | .ok parsed =>
    match interviewResponseFields parsed with
    | .ok r => r
    | .error _ => defaultInterviewResponse

/-! ### History truncation and message selection (`generateInterviewResponse`) -/

/-- One entry of the chat history handed to the Gemini SDK
(`parts: [{ text }]` flattened to its single text). -/
structure GeminiMessage where
  role : String
  text : String
deriving DecidableEq, Repr

/-- Conversion of one history entry: role `'ai'` becomes `'model'`,
everything else becomes `'user'`. -/
def toGeminiMessage (m : InterviewMessage) : GeminiMessage where
  role := if m.role = MessageRole.ai then "model" else "user"
  text := m.content

def geminiChatHistory (history : List InterviewMessage) : List GeminiMessage :=
  (history.drop (history.length - 10)).map toGeminiMessage

/-- Embedding of `history.filter(m => m.role === 'user').pop()?.content || 'Please continue the interview.'` -/
def lastUserContent (history : List InterviewMessage) : String :=
  match (history.filter (fun m => m.role = MessageRole.user)).getLast? with
  | some m => if m.content = "" then "Please continue the interview." else m.content
  | none => "Please continue the interview."

/-- What one call of `generateInterviewResponse` sends to the backend: the
truncated chat history and the message passed to `chat.sendMessage`. -/
def geminiInterviewCall (history : List InterviewMessage) : List GeminiMessage × String :=
  (geminiChatHistory history, lastUserContent history)

/-! ## Prompt assembly (`src/lib/prompts/interview.ts`, second definition)

`buildInterviewSystemPrompt` is a pure template-literal rendering; we embed
it as a concatenation of the same pieces, split around the
pending-required-fields warning block so that the block's presence can be
reasoned about directly. -/

/-- Embedding of `getAIBehaviorInstruction`. -/
def getAIBehaviorInstruction : AIBehavior → String
  | .structured =>
    "BEHAVIOR MODE: Structured\n- Prioritize brevity and script completion\n- Ask only clarifying follow-ups (0-1 per question)\n- Redirect tangents: \"That's interesting, but let's focus on...\""
  | .exploratory =>
    "BEHAVIOR MODE: Exploratory\n- Prioritize depth over coverage\n- Follow emotional threads and probe underlying motivations (3+ follow-ups if rich)\n- Chase interesting tangents immediately if relevant\n- Treat the script as a guide, not a checklist"
  | .standard =>
    "BEHAVIOR MODE: Standard (Balanced)\n- Balance script completion with natural conversation\n- Follow up once or twice on key insights, then move on\n- Note interesting tangents for the Exploration phase later"

/-- Embedding of `getToneInstruction`; `none` plays the role of the omitted argument,
which the default parameter and the `default` case both send to the
neutral block. -/
def getToneInstruction : Option InterviewerTone → String
  | some .formal =>
    "TONE: Formal\n- Maintain professional distance\n- Be objective and detached\n- Use precise, academic language\n- Avoid all casualisms or warmth"
  | some .professional =>
    "TONE: Professional\n- Be polite and respectful but strictly business-like\n- Focus on the task involved\n- Maintain a courteous but reserved demeanor"
  | some .friendly =>
    "TONE: Friendly\n- Be warm and welcoming\n- Use engaging, natural language\n- Show interest in the participant's responses\n- Feel free to be slightly casual where appropriate"
  | some .extremelyFriendly =>
    "TONE: Extremely Friendly (Bestie Mode)\n- Act like a close friend\n- Be very enthusiastic and high-energy\n- Use casual language and slang where appropriate\n- Show high empathy and excitement"
  | _ =>
    "TONE: Neutral\n- Normal conversational tone\n- Neither overly cold nor overly intimate\n- Natural and balanced"

/-- Embedding of `participantProfile?.fields.find(f => f.fieldId === field.id)`. -/
def findFieldValue (profile : Option ParticipantProfile) (fid : String) : Option ProfileFieldValue :=
  match profile with
  | some p => p.fields.find? (fun pf => pf.fieldId = fid)
  | none => none

def statusToString : ProfileFieldStatus → String
  | .pending => "pending"
  | .extracted => "extracted"
  | .vague => "vague"
  | .refused => "refused"

/-- Rendering of `value?.value` inside a template literal (`null` renders
as the text `null`). -/
def optValueText : Option String → String
  | some s => s
  | none => "null"

/-- Embedding of `formatProfileFields`. -/
def formatProfileFields (schema : List ProfileField) (profile : Option ParticipantProfile) : String :=
  String.intercalate "\n" (schema.map (fun field =>
    let value := findFieldValue profile field.id
    let status := match value with
      | some v => v.status
      | none => ProfileFieldStatus.pending
    let statusDisplay :=
      if status = ProfileFieldStatus.extracted then
        "extracted → \"" ++ optValueText (match value with | some v => v.value | none => none) ++ "\""
      else statusToString status
    "- " ++ field.id ++ " (" ++ (if field.required then "required" else "optional") ++
      "): \"" ++ field.extractionHint ++ "\" - STATUS: " ++ statusDisplay))

/-- The `remainingQuestions` list: indexed core questions not yet contained
in `questionsAsked`. -/
def remainingQuestions (cfg : StudyConfig) (progress : QuestionProgress) : List (Nat × String) :=
  cfg.coreQuestions.enum.filter (fun q => ! progress.questionsAsked.contains (Int.ofNat q.1))

def remainingSection (cfg : StudyConfig) (progress : QuestionProgress) : String :=
  if (remainingQuestions cfg progress).length > 0 then
    "- Remaining questions:\n" ++
      String.intercalate "\n"
        (((remainingQuestions cfg progress).take 3).map
          (fun q => "  " ++ toString (q.1 + 1) ++ ". " ++ q.2))
  else "- All core questions covered"

/-- The `pendingRequired` list: required schema fields whose value record is
missing or still `pending`/`vague`. -/
def pendingRequiredFields (cfg : StudyConfig) (profile : Option ParticipantProfile) : List ProfileField :=
  (cfg.profileSchema.filter (fun f => f.required)).filter (fun f =>
    match findFieldValue profile f.id with
    | none => true
    | some v => v.status = ProfileFieldStatus.pending ∨ v.status = ProfileFieldStatus.vague)

/-- The conditional warning block emitted after the profile-field listing. -/
def pendingWarningBlock (cfg : StudyConfig) (profile : Option ParticipantProfile) : String :=
  if (pendingRequiredFields cfg profile).length > 0 then
    "\n⚠️ " ++ toString (pendingRequiredFields cfg profile).length ++
      " required fields still pending. Stay in background phase until collected or explicitly refused."
  else ""

/-- Rendering of the optional participant-identifier line; empty for a missing or empty nickname. -/
def nicknameLine (profile : Option ParticipantProfile) : String :=
  match profile with
  | some p =>
    match p.nickname with
    | some n => if n = "" then "" else "PARTICIPANT IDENTIFIER: " ++ n
    | none => ""
  | none => ""

def languageInstructionOf (cfg : StudyConfig) : String :=
  if cfg.language = some ("jp") then
    "IMPORTANT: You must conduct this interview entirely in Japanese. Translate any system instructions or questions into natural, professional Japanese."
  else "Language: English"

/-- Rendering of the participant-context block; a default text stands in when the profile or its raw context is missing. -/
def rawContextBlock (profile : Option ParticipantProfile) : String :=
  match profile with
  | some p => if p.rawContext = "" then "No background gathered yet." else p.rawContext
  | none => "No background gathered yet."

/-- Rendering of the additional-context block; empty when the current context is empty. -/
def additionalContextBlock (ctx : String) : String :=
  if ctx = "" then "" else "ADDITIONAL CONTEXT:\n" ++ ctx

/-- The template text before the warning block. -/
def promptBeforeWarning (cfg : StudyConfig) (profile : Option ParticipantProfile)
    (progress : QuestionProgress) : String :=
  "You are an AI research interviewer conducting a qualitative study.\n" ++
  nicknameLine profile ++ "\n" ++
  languageInstructionOf cfg ++
  "\n\nSTUDY DETAILS:\n- Research Question: " ++ cfg.researchQuestion ++
  "\n- Description: " ++ cfg.description ++
  "\n- Topics to Explore: " ++ String.intercalate ", " cfg.topicAreas ++
  "\n\n" ++ getAIBehaviorInstruction cfg.aiBehavior ++
  "\n\n" ++ getToneInstruction cfg.tone ++
  "\n\nCURRENT INTERVIEW STATE:\n- Phase: " ++ phaseToString progress.currentPhase ++
  "\n- Core questions completed: " ++ toString progress.questionsAsked.length ++
  " of " ++ toString cfg.coreQuestions.length ++
  "\n" ++ remainingSection cfg progress ++
  "\n\nPROFILE FIELDS TO COLLECT:\n" ++ formatProfileFields cfg.profileSchema profile ++
  "\n"

/-- The template text after the warning block. -/
def promptAfterWarning (profile : Option ParticipantProfile) (ctx : String) : String :=
  "\n\nPARTICIPANT CONTEXT:\n" ++ rawContextBlock profile ++
  "\n\nINTERVIEW FLOW INSTRUCTIONS:\n1. BACKGROUND PHASE: Gather profile fields naturally. Bundle related questions. If answer is vague, ask one clarifying follow-up. If user refuses, mark as refused and move on.\n2. CORE QUESTIONS PHASE: Work through remaining core questions. Weave them naturally - don't follow strict order. Probe deeper on interesting responses.\n3. EXPLORATION PHASE: After all core questions, ask: \"Is there anything else about [topic] you'd like to explore or share?\"\n4. FEEDBACK PHASE: Ask: \"As a final question - do you have any feedback for the researchers about this study or interview experience?\"\n5. WRAP-UP PHASE: Thank them warmly and signal that the interview is complete.\n\nRULES:\n- Ask ONE question at a time\n- Use active listening - reflect back what you hear\n- Keep responses concise (2-3 sentences typical)\n- When a core question is substantially addressed, note its index\n- Extract profile data from user responses when mentioned\n- Signal shouldConclude=true only after feedback phase is complete\n- ALWAYS end your response with a question, unless the interview is concluding (shouldConclude=true)\n- If the user asks a question, answer it briefly and then immediately ask a follow-up or return to the topic. Do not just answer.\n\n" ++
  additionalContextBlock ctx

/-- Embedding of `buildInterviewSystemPrompt`. -/
def buildInterviewSystemPrompt (cfg : StudyConfig) (profile : Option ParticipantProfile)
    (progress : QuestionProgress) (ctx : String) : String :=
  promptBeforeWarning cfg profile progress ++ pendingWarningBlock cfg profile ++
    promptAfterWarning profile ctx

/-! ## Orchestrator state machine

The turn orchestrator itself (the `InterviewChat` component) is not among
the sources; only its types and callers are.  The definitions in this
section are therefore modelled from the specification, sections 4.1, 4.2
and 4.5. -/

/-- Position of a phase in the fixed five-phase order. -/
def phaseOrder : InterviewPhase → Nat
  | .background => 0
  | .coreQuestions => 1
  | .exploration => 2
  | .feedback => 3
  | .wrapUp => 4

/-- Modelled from the spec: `advancePhase(progress, requestedPhase)` of the
Question-Progress model (section 4.2; the orchestrator implementation is
not under the sources).  The transition commits only when the requested
phase is strictly later in the fixed phase ordering than `currentPhase`;
earlier or equal requests are ignored. -/
def advancePhase (p : QuestionProgress) (req : InterviewPhase) : QuestionProgress :=
  if phaseOrder p.currentPhase < phaseOrder req then { p with currentPhase := req } else p

/-- Modelled from the spec: `markAddressed(progress, index)` of the
Question-Progress model (section 4.2).  Adds the index to the set when it
is in range; out-of-range indices are ignored. -/
def markAddressed (p : QuestionProgress) (i : Int) : QuestionProgress :=
  if 0 ≤ i ∧ i < p.total then
    if p.questionsAsked.contains i then p
    else { p with questionsAsked := p.questionsAsked ++ [i] }
  else p

/-- Modelled from the spec: one proposed profile update applied by
`reconcile` (section 4.1).  Unknown field ids are dropped; a proposed
`extracted` with an empty or null value is coerced to `vague`. -/
def applyProfileUpdate (schema : List ProfileField) (fields : List ProfileFieldValue)
    (u : ProfileUpdate) : List ProfileFieldValue :=
  if schema.any (fun f => f.id = u.fieldId) then
    fields.map (fun v =>
      if v.fieldId = u.fieldId then
        let st : ProfileFieldStatus :=
          match u.status, u.value with
          | .extracted, none => .vague
          | .extracted, some s => if s = "" then .vague else .extracted
          | .vague, _ => .vague
          | .refused, _ => .refused
        { v with
          value := if st = ProfileFieldStatus.extracted then u.value else none
          status := st }
      else v)
  else fields

/-- Modelled from the spec: a required field is satisfied when its value
record exists and is `extracted` or `refused` (sections 4.3 and 4.5). -/
def requiredFieldsSatisfied (schema : List ProfileField) (fields : List ProfileFieldValue) : Bool :=
  (schema.filter (fun f => f.required)).all (fun f =>
    match fields.find? (fun v => v.fieldId = f.id) with
    | some v => v.status = ProfileFieldStatus.extracted ∨ v.status = ProfileFieldStatus.refused
    | none => false)

/-- Session state owned by one interview. -/
structure SessionState where
  profile : ParticipantProfile
  progress : QuestionProgress
deriving DecidableEq, Repr

/-- Modelled from the spec: one orchestrator turn (section 4.5, steps 3-5).
Profile updates are reconciled, `questionAddressed` and `phaseTransition`
are applied through the Question-Progress model — a transition out of
`background` is only honored once the required fields are satisfied — and
`shouldConclude` is honored only once `currentPhase = wrap-up`, i.e.
only when the interview is already in the wrap-up phase when the response
arrives; otherwise it is treated as false. -/
def orchestrateTurn (schema : List ProfileField) (st : SessionState)
    (resp : AIInterviewResponseTS) : SessionState × Bool :=
  let fields' := resp.profileUpdates.foldl (applyProfileUpdate schema) st.profile.fields
  let profile' := { st.profile with fields := fields' }
  let prog1 :=
    match resp.questionAddressed with
    | some i => markAddressed st.progress i
    | none => st.progress
  let prog2 :=
    match resp.phaseTransition with
    | some ph =>
      if st.progress.currentPhase = InterviewPhase.background ∧
          ¬ requiredFieldsSatisfied schema fields' then prog1
      else advancePhase prog1 ph
    | none => prog1
  let concluded := resp.shouldConclude && decide (st.progress.currentPhase = InterviewPhase.wrapUp)
  let prog3 := if concluded then { prog2 with isComplete := true } else prog2
  (⟨profile', prog3⟩, concluded)

/-! ## Sample values used by concrete counterexamples and witnesses -/

/-- History whose last user message lies before the 10-message window:
one user message followed by ten AI messages. -/
def c7History : List InterviewMessage :=
  ⟨"u0", MessageRole.user, "old question", 0, none⟩ ::
    List.replicate 10 ⟨"a", MessageRole.ai, "reply", 0, none⟩

/-- Parsed backend output whose `questionAddressed` is `0`: falsy but not
nullish. -/
def c9Parsed : JsVal :=
  .obj [("questionAddressed", .num 0)]

/-! ## Helper lemmas -/

theorem advancePhase_isComplete (p : QuestionProgress) (req : InterviewPhase) :
    (advancePhase p req).isComplete = p.isComplete := by
  unfold advancePhase; split <;> rfl

theorem advancePhase_currentPhase_le (p : QuestionProgress) (req : InterviewPhase) :
    phaseOrder p.currentPhase ≤ phaseOrder (advancePhase p req).currentPhase := by
  unfold advancePhase
  split
  · next h => exact Nat.le_of_lt h
  · exact Nat.le_refl _

theorem foldl_advancePhase_le (reqs : List InterviewPhase) :
    ∀ p : QuestionProgress,
      phaseOrder p.currentPhase ≤ phaseOrder ((reqs.foldl advancePhase p).currentPhase) := by
  induction reqs with
  | nil => intro p; exact Nat.le_refl _
  | cons r rs ih =>
    intro p
    exact Nat.le_trans (advancePhase_currentPhase_le p r) (ih (advancePhase p r))

theorem markAddressed_isComplete (p : QuestionProgress) (i : Int) :
    (markAddressed p i).isComplete = p.isComplete := by
  unfold markAddressed; split <;> [skip; rfl]; split <;> rfl

theorem markAddressed_currentPhase (p : QuestionProgress) (i : Int) :
    (markAddressed p i).currentPhase = p.currentPhase := by
  unfold markAddressed; split <;> [skip; rfl]; split <;> rfl

/-! ## Claims -/

/-- Claim C1: `advancePhase` commits the change only if the requested phase
is strictly later than `currentPhase` in the fixed five-phase order;
an earlier or equal request leaves the progress unchanged, and
`currentPhase` never decreases across any sequence of `advancePhase`
calls. -/
theorem claim_C1_advancePhase_monotone (p : QuestionProgress) (req : InterviewPhase)
    (reqs : List InterviewPhase) :
    (phaseOrder p.currentPhase < phaseOrder req →
      advancePhase p req = { p with currentPhase := req }) ∧
    (phaseOrder req ≤ phaseOrder p.currentPhase → advancePhase p req = p) ∧
    phaseOrder p.currentPhase ≤ phaseOrder (advancePhase p req).currentPhase ∧
    phaseOrder p.currentPhase ≤ phaseOrder ((reqs.foldl advancePhase p).currentPhase) := by
  refine ⟨?_, ?_, advancePhase_currentPhase_le p req, foldl_advancePhase_le reqs p⟩
  · intro h; unfold advancePhase; rw [if_pos h]
  · intro h; unfold advancePhase; rw [if_neg (by omega)]

theorem claim_C1_witness :
    advancePhase ⟨[], 2, InterviewPhase.background, false⟩ InterviewPhase.exploration =
        ⟨[], 2, InterviewPhase.exploration, false⟩ ∧
      advancePhase ⟨[], 2, InterviewPhase.exploration, false⟩ InterviewPhase.background =
        ⟨[], 2, InterviewPhase.exploration, false⟩ :=
  ⟨(claim_C1_advancePhase_monotone ⟨[], 2, InterviewPhase.background, false⟩
      InterviewPhase.exploration []).1 (by decide),
    (claim_C1_advancePhase_monotone ⟨[], 2, InterviewPhase.exploration, false⟩
      InterviewPhase.background []).2.1 (by decide)⟩

/-- Claim C2: in every orchestrator state, `shouldConclude = true` is honored
only when `currentPhase = wrap-up`; when the phase is not wrap-up the
response is treated as not concluding and never sets `isComplete` to
true. -/
theorem claim_C2_shouldConclude_gated (schema : List ProfileField) (st : SessionState)
    (resp : AIInterviewResponseTS) :
    (st.progress.currentPhase ≠ InterviewPhase.wrapUp →
      (orchestrateTurn schema st resp).2 = false ∧
      (orchestrateTurn schema st resp).1.progress.isComplete = st.progress.isComplete) ∧
    ((orchestrateTurn schema st resp).2 = true →
      st.progress.currentPhase = InterviewPhase.wrapUp ∧ resp.shouldConclude = true) := by
  have hsnd : (orchestrateTurn schema st resp).2 =
      (resp.shouldConclude && decide (st.progress.currentPhase = InterviewPhase.wrapUp)) := rfl
  have hcomplete : (orchestrateTurn schema st resp).1.progress.isComplete =
      ((resp.shouldConclude && decide (st.progress.currentPhase = InterviewPhase.wrapUp)) ||
        st.progress.isComplete) := by
    unfold orchestrateTurn
    cases hc : (resp.shouldConclude && decide (st.progress.currentPhase = InterviewPhase.wrapUp)) <;>
      cases hp : resp.phaseTransition <;> cases hq : resp.questionAddressed <;>
        simp only [hc, hp, hq, if_true, if_false, Bool.false_eq_true, Bool.true_eq_false,
          Bool.false_or, Bool.true_or, if_pos, if_neg] <;>
        first
          | rfl
          | (split <;>
              simp [markAddressed_isComplete, advancePhase_isComplete])
          | simp [markAddressed_isComplete, advancePhase_isComplete]
  constructor
  · intro h
    have hdec : decide (st.progress.currentPhase = InterviewPhase.wrapUp) = false :=
      decide_eq_false h
    refine ⟨?_, ?_⟩
    · rw [hsnd, hdec, Bool.and_false]
    · rw [hcomplete, hdec, Bool.and_false, Bool.false_or]
  · intro h
    rw [hsnd] at h
    rcases Bool.and_eq_true _ _ |>.mp h with ⟨h1, h2⟩
    exact ⟨of_decide_eq_true h2, h1⟩

theorem claim_C2_witness :
    (orchestrateTurn [] ⟨⟨"p", [], "", 0, none⟩, ⟨[], 1, InterviewPhase.background, false⟩⟩
        ⟨"bye", none, none, [], true⟩).2 = false ∧
    (orchestrateTurn [] ⟨⟨"p", [], "", 0, none⟩, ⟨[], 1, InterviewPhase.background, false⟩⟩
        ⟨"bye", none, none, [], true⟩).1.progress.isComplete = false :=
  (claim_C2_shouldConclude_gated [] ⟨⟨"p", [], "", 0, none⟩, ⟨[], 1, InterviewPhase.background, false⟩⟩
    ⟨"bye", none, none, [], true⟩).1 (by decide)

/-- Claim C4: `cleanJSON` on `"Sure! ```json\n{"a":1}\n```"` yields
`{"a":1}`, and `cleanJSON` on `"no json here"` yields the input
unchanged. -/
theorem claim_C4_cleanJSON_examples :
    cleanJSON ("Sure! ```json\n\x7b\"a\":1\x7d\n```") = "\x7b\"a\":1\x7d" ∧
    cleanJSON ("no json here") = "no json here" := by
  exact ⟨by decide, by decide⟩

/-- Claim C5: every backend failure of `generateInterviewResponse` (thrown
error, timeout, unparseable output, quota) is caught and answered with
the fixed, non-empty `defaultInterviewResponse`; the function is total,
so no failure propagates to the caller. -/
theorem claim_C5_failure_fallback (e : Unit) :
    generateInterviewResponseModel (Except.error e) = defaultInterviewResponse ∧
    defaultInterviewResponse.message =
      JsVal.str ("I appreciate you sharing that. What else comes to mind?") ∧
    defaultInterviewResponse.questionAddressed = JsVal.null ∧
    defaultInterviewResponse.phaseTransition = JsVal.null ∧
    defaultInterviewResponse.profileUpdates = JsVal.arr [] ∧
    defaultInterviewResponse.shouldConclude = JsVal.bool false ∧
    defaultInterviewResponse.message ≠ JsVal.str ("") := by
  refine ⟨rfl, rfl, rfl, rfl, rfl, rfl, ?_⟩
  intro h
  exact absurd (JsVal.str.inj h) (by decide)

/-- Claim C8: `buildInterviewSystemPrompt` is deterministic — two calls on
equal inputs return byte-identical text.  The embedding is a total pure
function of its four arguments, so it has no way to mutate them. -/
theorem claim_C8_prompt_deterministic (c₁ c₂ : StudyConfig)
    (p₁ p₂ : Option ParticipantProfile) (q₁ q₂ : QuestionProgress) (x₁ x₂ : String)
    (hc : c₁ = c₂) (hp : p₁ = p₂) (hq : q₁ = q₂) (hx : x₁ = x₂) :
    buildInterviewSystemPrompt c₁ p₁ q₁ x₁ = buildInterviewSystemPrompt c₂ p₂ q₂ x₂ := by
  subst hc; subst hp; subst hq; subst hx; rfl

theorem claim_C8_witness :
    buildInterviewSystemPrompt
        ⟨"s", "n", "d", "rq", ["q1"], [], [], AIBehavior.standard, "", 0, none, none⟩ none
        ⟨[], 1, InterviewPhase.background, false⟩ "" =
      buildInterviewSystemPrompt
        ⟨"s", "n", "d", "rq", ["q1"], [], [], AIBehavior.standard, "", 0, none, none⟩ none
        ⟨[], 1, InterviewPhase.background, false⟩ "" :=
  claim_C8_prompt_deterministic _ _ _ _ _ _ _ _ rfl rfl rfl rfl

/-- Claim C7 (counterexample): the claim says all messages older than the
last 10 are excluded from the model call; but when the ten newest
messages contain no user turn, `chat.sendMessage` still carries the
content of the older last user message.  Here the history has 11
messages, the sent chat history contains no message with the old user
content, yet that content is the message sent to the backend. -/
theorem claim_C7_counterexample :
    c7History.length = 11 ∧
    (geminiInterviewCall c7History).2 = "old question" ∧
    ((geminiInterviewCall c7History).1.all (fun g => g.text ≠ "old question")) = true := by
  refine ⟨by decide, by decide, by decide⟩

/-- Claim C7 (amended): the chat history handed to the backend is exactly
the image of the last `min 10 n` messages of the history; separately,
the message passed to `chat.sendMessage` is the content of the last
user-role message of the full history (or a fixed fallback prompt), and
that message may lie outside the 10-message window. -/
theorem claim_C7_history_truncation (history : List InterviewMessage) :
    ∃ older recent : List InterviewMessage,
      history = older ++ recent ∧
      recent.length = min 10 history.length ∧
      (geminiInterviewCall history).1 = recent.map toGeminiMessage ∧
      ((history.filter (fun m => m.role = MessageRole.user)) = [] →
        (geminiInterviewCall history).2 = "Please continue the interview.") ∧
      (∀ m, (history.filter (fun m => m.role = MessageRole.user)).getLast? = some m →
        m.content ≠ "" → (geminiInterviewCall history).2 = m.content) := by
  refine ⟨history.take (history.length - 10), history.drop (history.length - 10),
    (List.take_append_drop _ _).symm, ?_, rfl, ?_, ?_⟩
  · rw [List.length_drop]; omega
  · intro h
    unfold geminiInterviewCall lastUserContent
    rw [h]
    rfl
  · intro m hm hc
    unfold geminiInterviewCall lastUserContent
    rw [hm]
    simp [hc]

theorem claim_C7_witness :
    (geminiInterviewCall [⟨"m1", MessageRole.user, "hi", 0, none⟩]).2 = "hi" := by
  obtain ⟨o, r, _, _, _, _, h5⟩ :=
    claim_C7_history_truncation [⟨"m1", MessageRole.user, "hi", 0, none⟩]
  exact h5 ⟨"m1", MessageRole.user, "hi", 0, none⟩ (by decide) (by decide)

theorem getProp_of_not_nullish (j : JsVal) (k : String) (h : jsNullish j = false) :
    getProp j k = Except.ok (propOf j k) := by
  cases j <;> first | rfl | exact absurd h (by simp [jsNullish])

theorem genResp_ok (parsed : JsVal) (h : jsNullish parsed = false) :
    generateInterviewResponseModel (Except.ok parsed) =
      { message := jsOr (propOf parsed "message")
          (.str ("That's interesting. Could you tell me more?"))
        questionAddressed := jsCoalesce (propOf parsed "questionAddressed") .null
        phaseTransition := jsCoalesce (propOf parsed "phaseTransition") .null
        profileUpdates := jsOr (propOf parsed "profileUpdates") (.arr [])
        shouldConclude := jsOr (propOf parsed "shouldConclude") (.bool false) } := by
  cases parsed <;> first | rfl | exact absurd h (by simp [jsNullish])

theorem jsTruthy_ne_of_true (x : JsVal) (h : jsTruthy x = true) :
    x ≠ JsVal.undefined ∧ x ≠ JsVal.null ∧ x ≠ JsVal.str ("") := by
  refine ⟨?_, ?_, ?_⟩ <;> intro he <;> rw [he] at h <;> revert h <;> decide

theorem jsOr_ne_undefined (a b : JsVal) (hb : b ≠ JsVal.undefined) :
    jsOr a b ≠ JsVal.undefined := by
  unfold jsOr
  split
  · next hx => exact (jsTruthy_ne_of_true _ hx).1
  · exact hb

theorem jsCoalesce_null_ne_undefined (a : JsVal) :
    jsCoalesce a JsVal.null ≠ JsVal.undefined := by
  unfold jsCoalesce
  split
  · exact fun he => JsVal.noConfusion he
  · next hx =>
      intro he
      rw [he] at hx
      exact hx rfl

/-- Claim C9 (counterexample): the claim says every absent or falsy
`questionAddressed` becomes `null`; but the code uses nullish
coalescing, so the falsy—yet non-nullish—value `0` is kept. -/
theorem claim_C9_counterexample :
    jsTruthy (propOf c9Parsed "questionAddressed") = false ∧
    (generateInterviewResponseModel (Except.ok c9Parsed)).questionAddressed = JsVal.num 0 ∧
    JsVal.num 0 ≠ JsVal.null := by
  refine ⟨rfl, rfl, fun h => JsVal.noConfusion h⟩

/-- Claim C9 (amended): when the backend output parses to a non-nullish
value, `message`, `profileUpdates` and `shouldConclude` are replaced by
their per-field defaults exactly when falsy, while `questionAddressed`
and `phaseTransition` are replaced by `null` exactly when nullish
(absent or null) — falsy non-nullish values are kept; every field of the
result is defined and `message` is never undefined, null or empty. -/
theorem claim_C9_field_defaults (parsed : JsVal) (h : jsNullish parsed = false) :
    (jsTruthy (propOf parsed "message") = false →
      (generateInterviewResponseModel (Except.ok parsed)).message =
        JsVal.str ("That's interesting. Could you tell me more?")) ∧
    (jsTruthy (propOf parsed "message") = true →
      (generateInterviewResponseModel (Except.ok parsed)).message = propOf parsed "message") ∧
    (jsNullish (propOf parsed "questionAddressed") = true →
      (generateInterviewResponseModel (Except.ok parsed)).questionAddressed = JsVal.null) ∧
    (jsNullish (propOf parsed "questionAddressed") = false →
      (generateInterviewResponseModel (Except.ok parsed)).questionAddressed =
        propOf parsed "questionAddressed") ∧
    (jsNullish (propOf parsed "phaseTransition") = true →
      (generateInterviewResponseModel (Except.ok parsed)).phaseTransition = JsVal.null) ∧
    (jsNullish (propOf parsed "phaseTransition") = false →
      (generateInterviewResponseModel (Except.ok parsed)).phaseTransition =
        propOf parsed "phaseTransition") ∧
    (jsTruthy (propOf parsed "profileUpdates") = false →
      (generateInterviewResponseModel (Except.ok parsed)).profileUpdates = JsVal.arr []) ∧
    (jsTruthy (propOf parsed "profileUpdates") = true →
      (generateInterviewResponseModel (Except.ok parsed)).profileUpdates =
        propOf parsed "profileUpdates") ∧
    (jsTruthy (propOf parsed "shouldConclude") = false →
      (generateInterviewResponseModel (Except.ok parsed)).shouldConclude = JsVal.bool false) ∧
    (jsTruthy (propOf parsed "shouldConclude") = true →
      (generateInterviewResponseModel (Except.ok parsed)).shouldConclude =
        propOf parsed "shouldConclude") ∧
    (generateInterviewResponseModel (Except.ok parsed)).message ≠ JsVal.undefined ∧
    (generateInterviewResponseModel (Except.ok parsed)).message ≠ JsVal.null ∧
    (generateInterviewResponseModel (Except.ok parsed)).message ≠ JsVal.str ("") ∧
    (generateInterviewResponseModel (Except.ok parsed)).questionAddressed ≠ JsVal.undefined ∧
    (generateInterviewResponseModel (Except.ok parsed)).phaseTransition ≠ JsVal.undefined ∧
    (generateInterviewResponseModel (Except.ok parsed)).profileUpdates ≠ JsVal.undefined ∧
    (generateInterviewResponseModel (Except.ok parsed)).shouldConclude ≠ JsVal.undefined := by
  rw [genResp_ok parsed h]
  refine ⟨?_, ?_, ?_, ?_, ?_, ?_, ?_, ?_, ?_, ?_, ?_, ?_, ?_, ?_, ?_, ?_, ?_⟩
  · intro hx; simp [jsOr, hx]
  · intro hx; simp [jsOr, hx]
  · intro hx; simp [jsCoalesce, hx]
  · intro hx; simp [jsCoalesce, hx]
  · intro hx; simp [jsCoalesce, hx]
  · intro hx; simp [jsCoalesce, hx]
  · intro hx; simp [jsOr, hx]
  · intro hx; simp [jsOr, hx]
  · intro hx; simp [jsOr, hx]
  · intro hx; simp [jsOr, hx]
  · exact jsOr_ne_undefined _ _ (fun he => JsVal.noConfusion he)
  · show jsOr _ _ ≠ _
    unfold jsOr
    split
    · next hx => exact (jsTruthy_ne_of_true _ hx).2.1
    · exact fun he => JsVal.noConfusion he
  · show jsOr _ _ ≠ _
    unfold jsOr
    split
    · next hx => exact (jsTruthy_ne_of_true _ hx).2.2
    · intro he
      exact absurd (JsVal.str.inj he) (by decide)
  · exact jsCoalesce_null_ne_undefined _
  · exact jsCoalesce_null_ne_undefined _
  · exact jsOr_ne_undefined _ _ (fun he => JsVal.noConfusion he)
  · exact jsOr_ne_undefined _ _ (fun he => JsVal.noConfusion he)

theorem claim_C9_witness :
    (generateInterviewResponseModel (Except.ok c9Parsed)).message =
      JsVal.str ("That's interesting. Could you tell me more?") ∧
    (generateInterviewResponseModel (Except.ok c9Parsed)).questionAddressed = JsVal.num 0 :=
  ⟨(claim_C9_field_defaults c9Parsed rfl).1 rfl,
    (claim_C9_field_defaults c9Parsed rfl).2.2.2.1 rfl⟩

theorem warning_text_ne_empty (n : Nat) :
    ("\n⚠️ " ++ toString n ++
        " required fields still pending. Stay in background phase until collected or explicitly refused." : String) ≠
      "" := by
  intro hcontra
  have hlen := congrArg String.length hcontra
  rw [String.length_append, String.length_append] at hlen
  have h1 : 0 < ("\n⚠️ " : String).length := by decide
  have h0 : ("" : String).length = 0 := rfl
  omega

/-- Claim C6: the assembled interview system prompt carries the
pending-required-fields warning block exactly when at least one required
profile field has no recorded value or is not yet extracted or refused. -/
theorem claim_C6_pending_warning_iff (cfg : StudyConfig) (profile : Option ParticipantProfile)
    (progress : QuestionProgress) (ctx : String) :
    buildInterviewSystemPrompt cfg profile progress ctx =
        promptBeforeWarning cfg profile progress ++ pendingWarningBlock cfg profile ++
          promptAfterWarning profile ctx ∧
    (pendingWarningBlock cfg profile ≠ "" ↔
      ∃ f, f ∈ cfg.profileSchema ∧ f.required = true ∧
        ¬ ∃ v, findFieldValue profile f.id = some v ∧
          (v.status = ProfileFieldStatus.extracted ∨ v.status = ProfileFieldStatus.refused)) := by
  refine ⟨rfl, ?_⟩
  have hmem : ∀ f, f ∈ pendingRequiredFields cfg profile ↔
      (f ∈ cfg.profileSchema ∧ f.required = true ∧
        ¬ ∃ v, findFieldValue profile f.id = some v ∧
          (v.status = ProfileFieldStatus.extracted ∨ v.status = ProfileFieldStatus.refused)) := by
    intro f
    unfold pendingRequiredFields
    rw [List.mem_filter, List.mem_filter]
    constructor
    · rintro ⟨⟨hin, hreq⟩, hped⟩
      refine ⟨hin, hreq, ?_⟩
      rintro ⟨v, hv, hst⟩
      rw [hv] at hped
      have := of_decide_eq_true hped
      rcases hst with h1 | h1 <;> rcases this with h2 | h2 <;> simp_all
    · rintro ⟨hin, hreq, hnone⟩
      refine ⟨⟨hin, hreq⟩, ?_⟩
      cases hv : findFieldValue profile f.id with
      | none => rfl
      | some v =>
        cases hs : v.status with
        | pending => simp [hs]
        | vague => simp [hs]
        | extracted => exact absurd ⟨v, hv, Or.inl hs⟩ hnone
        | refused => exact absurd ⟨v, hv, Or.inr hs⟩ hnone
  constructor
  · intro hne
    unfold pendingWarningBlock at hne
    split at hne
    · next hlen =>
        obtain ⟨f, hf⟩ := List.length_pos_iff_exists_mem.mp hlen
        exact ⟨f, (hmem f).mp hf⟩
    · exact absurd rfl hne
  · rintro ⟨f, hf⟩
    have hlen : 0 < (pendingRequiredFields cfg profile).length :=
      List.length_pos_iff_exists_mem.mpr ⟨f, (hmem f).mpr hf⟩
    unfold pendingWarningBlock
    rw [if_pos hlen]
    exact warning_text_ne_empty _

theorem claim_C6_witness :
    pendingWarningBlock
        ⟨"s", "n", "d", "rq", [], [], [⟨"age", "Age", "their age", true, none⟩],
          AIBehavior.standard, "", 0, none, none⟩ none ≠ "" :=
  (claim_C6_pending_warning_iff _ none ⟨[], 0, InterviewPhase.background, false⟩ "").2.mpr
    ⟨⟨"age", "Age", "their age", true, none⟩, by decide, rfl,
      fun ⟨_, hv, _⟩ => Option.noConfusion hv⟩

theorem find?_cons_eq (p : Nat → Bool) (a : Nat) (l : List Nat) :
    (a :: l).find? p = if p a then some a else l.find? p := by
  cases h : p a <;> simp [List.find?, h]

theorem scanClose_eq_find (o c : Char) (hoc : o ≠ c) :
    ∀ (l : List Char) (d : Int),
      scanClose o c l d =
        (List.range l.length).find?
          (fun j => decide (d + (((l.take (j + 1)).count o : Int)) -
            (((l.take (j + 1)).count c : Int)) = 0)) := by
  intro l
  induction l with
  | nil => intro d; simp [scanClose]
  | cons ch t ih =>
    intro d
    have hunfold : scanClose o c (ch :: t) d =
        if (if ch = o then d + 1 else if ch = c then d - 1 else d) = 0 then some 0
        else (scanClose o c t (if ch = o then d + 1 else if ch = c then d - 1 else d)).map
          (· + 1) := rfl
    rw [hunfold, List.length_cons, List.range_succ_eq_map, find?_cons_eq, List.find?_map]
    have hp0 : (decide (d + ((((ch :: t).take (0 + 1)).count o : Int)) -
        ((((ch :: t).take (0 + 1)).count c : Int)) = 0)) =
        decide ((if ch = o then d + 1 else if ch = c then d - 1 else d) = 0) := by
      rw [decide_eq_decide]
      by_cases h1 : ch = o <;> by_cases h2 : ch = c <;>
        simp [h1, h2, hoc, Ne.symm hoc, List.count_cons, List.count_nil,
          List.take_succ_cons, List.take_zero]
    have hps : ((fun j => decide (d + ((((ch :: t).take (j + 1)).count o : Int)) -
        ((((ch :: t).take (j + 1)).count c : Int)) = 0)) ∘ Nat.succ) =
        (fun j => decide ((if ch = o then d + 1 else if ch = c then d - 1 else d) +
          (((t.take (j + 1)).count o : Int)) - (((t.take (j + 1)).count c : Int)) = 0)) := by
      funext j
      simp only [Function.comp]
      rw [decide_eq_decide]
      have h2 : (ch :: t).take (Nat.succ j + 1) = ch :: t.take (j + 1) := List.take_succ_cons
      rw [h2]
      by_cases ho : ch = o <;> by_cases hc : ch = c <;>
        simp [ho, hc, hoc, Ne.symm hoc, List.count_cons] <;> omega
    rw [hp0, hps, ih]
    simp only [decide_eq_true_eq]

theorem scanClose_eq_specClose (o c : Char) (hoc : o ≠ c) (l : List Char) :
    scanClose o c l 0 = specClose o c l := by
  rw [scanClose_eq_find o c hoc l 0]
  unfold specClose
  congr 1
  funext j
  rw [decide_eq_decide]
  omega

theorem cleanJSONList_eq_spec (l : List Char) : cleanJSONList l = cleanJSONSpecList l := by
  by_cases hl : l = []
  · rw [hl]; rfl
  · unfold cleanJSONList cleanJSONSpecList
    rw [if_neg hl, if_neg hl]
    have harr := scanClose_eq_specClose '[' ']' (by decide)
    have hbr := scanClose_eq_specClose '\x7b' '\x7d' (by decide)
    rcases hfb : (cleanedOf l).findIdx? (· = '[') with _ | i <;>
      rcases hfc : (cleanedOf l).findIdx? (· = '\x7b') with _ | j <;>
        simp only [hfb, hfc, harr, hbr]
    all_goals
      first
        | rfl
        | (cases hs : specClose '\x7b' '\x7d' ((cleanedOf l).drop j) <;>
            simp [balancedChunk, hs]
           done)
        | (cases hs : specClose '[' ']' ((cleanedOf l).drop i) <;>
            simp [balancedChunk, hs]
           done)
        | (by_cases hij : i < j
           · cases hs1 : specClose '[' ']' ((cleanedOf l).drop i) <;>
               cases hs2 : specClose '\x7b' '\x7d' ((cleanedOf l).drop j) <;>
                 simp [hij, balancedChunk, hs1, hs2, Option.orElse]
           · cases hs : specClose '\x7b' '\x7d' ((cleanedOf l).drop j) <;>
               simp [hij, balancedChunk, hs]
           )

/-- Claim C3 (counterexample): the claim says `cleanJSON` returns the
string `\x7b\x7d` when no JSON structure is found in the input; but on
`"no json here"` the code returns the cleaned input itself. -/
theorem claim_C3_counterexample :
    cleanJSON ("no json here") = "no json here" ∧
    ("no json here" : String) ≠ "\x7b\x7d" := by
  exact ⟨by decide, by decide⟩

/-- Claim C3 (amended): for every input, `cleanJSON` strips code-fence
markers and trims, then returns the first complete balanced JSON array
or object (the chunk from the first opening bracket — or, failing that
or when a brace comes first, the first opening brace — to the position
at which the outermost bracket depth of that kind returns to zero);
when no such structure completes it returns the cleaned string itself,
and it returns `\x7b\x7d` only for empty input. -/
theorem claim_C3_cleanJSON_refines_spec (s : String) : cleanJSON s = cleanJSONSpec s := by
  unfold cleanJSON cleanJSONSpec
  rw [cleanJSONList_eq_spec]

theorem cleanJSONList_of_unclosed_brace (l : List Char) (j : Nat)
    (hl : l ≠ [])
    (hbr : (cleanedOf l).findIdx? (· = '\x7b') = some j)
    (hbk : (((cleanedOf l).findIdx? (· = '[')).all (fun i => decide (j < i))) = true)
    (hclose : scanClose '\x7b' '\x7d' ((cleanedOf l).drop j) 0 = none) :
    cleanJSONList l = cleanedOf l := by
  unfold cleanJSONList
  rw [if_neg hl]
  rcases hfb : (cleanedOf l).findIdx? (· = '[') with _ | i
  · simp only [hfb, hbr, hclose]
  · rw [hfb] at hbk
    have hji : j < i := of_decide_eq_true (by simpa [Option.all] using hbk)
    have hnlt : ¬ i < j := by omega
    simp only [hfb, hbr, hclose, hnlt]
    simp

/-- Claim C10: when, after fence stripping and trimming, the cleaned text
has an opening brace with no earlier opening bracket and its brace
depth never returns to zero, `cleanJSON` returns the entire cleaned
string — not a truncated prefix and not the `\x7b\x7d` default. -/
theorem claim_C10_unclosed_brace (s : String) (j : Nat)
    (hs : s ≠ "")
    (hbr : (cleanedOf s.data).findIdx? (· = '\x7b') = some j)
    (hbk : (((cleanedOf s.data).findIdx? (· = '[')).all (fun i => decide (j < i))) = true)
    (hclose : scanClose '\x7b' '\x7d' ((cleanedOf s.data).drop j) 0 = none) :
    cleanJSON s = String.mk (cleanedOf s.data) := by
  have hdata : s.data ≠ [] := by
    intro h
    apply hs
    cases s
    simp only at h
    rw [h]
  unfold cleanJSON
  rw [cleanJSONList_of_unclosed_brace s.data j hdata hbr hbk hclose]

theorem claim_C10_witness :
    cleanJSON ("\x7babc") = String.mk (cleanedOf ("\x7babc" : String).data) ∧
    cleanJSON ("\x7babc") = "\x7babc" :=
  ⟨claim_C10_unclosed_brace "\x7babc" 0 (by decide) (by decide) (by decide) (by decide),
    by decide⟩
